import Mathlib

/-!
Shallow embedding of `bdr_executor.c` (BDR executor gate, DDL command queue,
truncate batching, and replica-identity row lookup), together with proofs of
the specified properties.

Modelling conventions:
* Process-global flags (`in_bdr_replicate_ddl_command`, `replication_origin_id`,
  the `bdr.skip_ddl_replication` GUC) and the durable queue tables
  (`bdr.bdr_queued_commands`, `bdr.bdr_queued_drops`) are fields of an explicit
  `BdrState` record threaded through each call.
* `pg_current_xlog_location()`, `now()` and `GetUserNameFromId(GetUserId())`
  are read from the state (`current_lsn`, `current_time`, `current_user`).
* PostgreSQL `elog(ERROR)/ereport(ERROR)` aborts are modelled with
  `Except`/`Option` error results; `PG_TRY/PG_CATCH` becomes explicit
  case analysis on the fallible step.
* SQL NULL is `Option.none`.
-/

/-- One row of `bdr.bdr_queued_commands`:
(lsn, queued_at, perpetrator, command_tag, command). -/
structure QueuedCommand where
  lsn : Nat
  queued_at : Nat
  perpetrator : String
  command_tag : String
  command : String
deriving DecidableEq, Repr

/-- One element of the `dropped_object` array stored in
`bdr.bdr_queued_drops` (object-type, address names, address args);
each component may be SQL NULL. -/
structure DroppedObject where
  objtype : Option String
  addressNames : Option (List String)
  addressArgs : Option (List String)
deriving DecidableEq, Repr

/-- The process/session state visible to `bdr_executor.c`. -/
structure BdrState where
  /-- guard set by `bdr_replicate_ddl_command` while it runs -/
  in_bdr_replicate_ddl_command : Bool
  /-- `replication_origin_id`; `InvalidRepNodeId` is modelled as `0` -/
  replication_origin_id : Nat
  /-- `GetConfigOptionByName("bdr.skip_ddl_replication")` compared to `"on"` -/
  skip_ddl_replication : Bool
  /-- `pg_current_xlog_location()` -/
  current_lsn : Nat
  /-- `now()` -/
  current_time : Nat
  /-- `GetUserNameFromId(GetUserId())` -/
  current_user : String
  /-- contents of `bdr.bdr_queued_commands`, in insertion order -/
  queued_commands : List QueuedCommand
  /-- contents of `bdr.bdr_queued_drops`: each row holds one array payload -/
  queued_drops : List (List DroppedObject)
  /-- the static list `bdr_truncated_tables` (relation oids) -/
  bdr_truncated_tables : List Nat
deriving DecidableEq, Repr

/-- `bdr_queue_ddl_command(command_tag, command)`: unconditionally forms one
tuple (lsn, queued_at, perpetrator, command_tag, command) and inserts it into
`bdr.bdr_queued_commands`.  The C function performs no recursion-guard or
configuration checks. -/
def bdr_queue_ddl_command (command_tag command : String) (s : BdrState) : BdrState :=
  { s with queued_commands :=
      s.queued_commands ++
        [⟨s.current_lsn, s.current_time, s.current_user, command_tag, command⟩] }

/-- One row returned by the introspection query in `bdr_queue_ddl_commands`
(`command_tag, object_type, schema, identity, in_extension, command`);
text columns may be SQL NULL.  `in_extension` is read with `DatumGetBool`
without a null check, so it is a plain `Bool`. -/
structure CommandRow where
  command_tag : Option String
  object_type : Option String
  schema : Option String
  identity : Option String
  in_extension : Bool
  command : Option String
deriving DecidableEq, Repr

/-- Body of the per-tuple loop of `bdr_queue_ddl_commands`: skip temp-schema
(`pg_temp`) rows, skip `in_extension` rows, otherwise enqueue the
(tag, expanded command) pair. -/
def queue_ddl_commands_step (s : BdrState) (r : CommandRow) : BdrState :=
  if r.schema = some "pg_temp" then s
  else if r.in_extension then s
  else bdr_queue_ddl_command (r.command_tag.getD "") (r.command.getD "") s

/-- `bdr_queue_ddl_commands` (the `ddl_command_end` event-trigger handler):
no-op when `in_bdr_replicate_ddl_command` is set, when a remote origin is
being replayed, or when `bdr.skip_ddl_replication` is on; otherwise processes
every reported command row in order. -/
def bdr_queue_ddl_commands (rows : List CommandRow) (s : BdrState) : BdrState :=
  if s.in_bdr_replicate_ddl_command then s
  else if s.replication_origin_id ≠ 0 then s
  else if s.skip_ddl_replication then s
  else rows.foldl queue_ddl_commands_step s

/-- Errors that can escape the `PG_TRY` block of `bdr_replicate_ddl_command`. -/
inductive DdlError where
  /-- the insert performed by `bdr_queue_ddl_command` raised an error -/
  | enqueueFailed
  /-- `bdr_execute_ddl_command` raised an error -/
  | execFailed
deriving DecidableEq, Repr

/-- `bdr_replicate_ddl_command(command)`: sets `in_bdr_replicate_ddl_command`,
then inside `PG_TRY` queues the text with tag `"SQL"` and executes it locally
(the local execution fires the `ddl_command_end` event trigger, i.e.
`bdr_queue_ddl_commands`, on whatever command rows `ddlRows` that execution
reports); the `PG_CATCH` branch clears the guard and re-throws, and the
normal path clears the guard afterwards.  `enqueueOk`/`execOk` say whether the
two fallible steps succeed.  Result: the error (if any) propagated to the
caller, and the state at return. -/
def bdr_replicate_ddl_command (query : String) (ddlRows : List CommandRow)
    (enqueueOk execOk : Bool) (s : BdrState) : Option DdlError × BdrState :=
  let s1 := { s with in_bdr_replicate_ddl_command := true }
  if enqueueOk = false then
    (some .enqueueFailed, { s1 with in_bdr_replicate_ddl_command := false })
  else
    let s2 := bdr_queue_ddl_command "SQL" query s1
    if execOk = false then
      (some .execFailed, { s2 with in_bdr_replicate_ddl_command := false })
    else
      let s3 := bdr_queue_ddl_commands ddlRows s2
      (none, { s3 with in_bdr_replicate_ddl_command := false })

/-- `bdr_start_truncate()`: resets the truncated-tables list. -/
def bdr_start_truncate (s : BdrState) : BdrState :=
  { s with bdr_truncated_tables := [] }

/-- `bdr_queue_truncate` (the per-table TRUNCATE trigger): no-op when
`in_bdr_replicate_ddl_command` is set or a remote origin is being replayed;
otherwise appends the relation oid to `bdr_truncated_tables`. -/
def bdr_queue_truncate (reloid : Nat) (s : BdrState) : BdrState :=
  if s.in_bdr_replicate_ddl_command then s
  else if s.replication_origin_id ≠ 0 then s
  else { s with bdr_truncated_tables := s.bdr_truncated_tables ++ [reloid] }

/-- The string built by `bdr_finish_truncate`'s loop: start from
`"TRUNCATE TABLE ONLY "` and append each qualified name, separated by
`", "` (the separator is empty before the first name). -/
def truncate_command_text (names : List String) : String :=
  "TRUNCATE TABLE ONLY " ++
    (match names with
     | [] => ""
     | n :: rest => rest.foldl (fun acc m => acc ++ ", " ++ m) n)

/-- `bdr_finish_truncate()`: if `bdr_truncated_tables` is empty, do nothing;
otherwise render the consolidated `TRUNCATE TABLE ONLY ...` text over the
qualified names of the recorded oids (in recorded order), enqueue it with tag
`"TRUNCATE (automatic)"` via `bdr_queue_ddl_command`, and clear the list.
`qualname` stands for
`quote_qualified_identifier(get_namespace_name(...), get_rel_name(...))`. -/
def bdr_finish_truncate (qualname : Nat → String) (s : BdrState) : BdrState :=
  if s.bdr_truncated_tables.length < 1 then s
  else
    let text := truncate_command_text (s.bdr_truncated_tables.map qualname)
    let s1 := bdr_queue_ddl_command "TRUNCATE (automatic)" text s
    { s1 with bdr_truncated_tables := [] }

/-- One row returned by `pg_event_trigger_dropped_objects()` as selected in
`bdr_queue_dropped_objects`: `original, normal, object_type, address_names,
address_args`, each possibly SQL NULL. -/
structure DropRow where
  original : Option Bool
  normal : Option Bool
  object_type : Option String
  address_names : Option (List String)
  address_args : Option (List String)
deriving DecidableEq, Repr

/-- The skip test of `bdr_queue_dropped_objects`'s loop:
`(cmdnulls[0] || !original) && (cmdnulls[1] || !normal)` — the row is skipped
when it is flagged neither original nor normal. -/
def drop_row_skipped (r : DropRow) : Bool :=
  (r.original.isNone || !(r.original.getD false)) &&
    (r.normal.isNone || !(r.normal.getD false))

/-- The `bdr.dropped_object` tuple formed for a kept row: the
(object_type, address_names, address_args) columns, nulls preserved. -/
def drop_row_payload (r : DropRow) : DroppedObject :=
  ⟨r.object_type, r.address_names, r.address_args⟩

/-- `bdr_queue_dropped_objects` (the `sql_drop` event-trigger handler): no-op
under either recursion guard or when `bdr.skip_ddl_replication` is on;
otherwise keeps the rows flagged original or normal, and, unless none remain,
inserts a single row into `bdr.bdr_queued_drops` whose payload is the array of
kept rows in reported order. -/
def bdr_queue_dropped_objects (rows : List DropRow) (s : BdrState) : BdrState :=
  if s.in_bdr_replicate_ddl_command then s
  else if s.replication_origin_id ≠ 0 then s
  else if s.skip_ddl_replication then s
  else
    let kept := rows.filter (fun r => !drop_row_skipped r)
    if kept.isEmpty then s
    else { s with queued_drops := s.queued_drops ++ [kept.map drop_row_payload] }

/-- Modelled from the spec: a "temporary-schema object" among dropped objects
is one whose first qualified-name part is the temporary schema `pg_temp`
(this predicate exists only to state the spec's filtering claim; the C code
of `bdr_queue_dropped_objects` contains no corresponding test). -/
def is_temp_schema_object (d : DroppedObject) : Bool :=
  (d.addressNames.getD []).head? = some "pg_temp"

/-! ### The executor write gate (`BdrExecutorStart`) -/

/-- `CmdType`: the statement's operation (`queryDesc->operation` =
`plannedstmt->commandType`). -/
inductive CmdType where
  | select
  | insert
  | update
  | delete
  | utility
deriving DecidableEq, Repr

/-- `CreateCommandTag` restricted to what `CreateWritableStmtTag` needs:
the tag determined by the statement's command type. -/
def CreateCommandTag : CmdType → String
  | .select => "SELECT"
  | .insert => "INSERT"
  | .update => "UPDATE"
  | .delete => "DELETE"
  | .utility => "UTILITY"

/-- The data `BdrExecutorStart` reads from each result relation. -/
structure RelInfo where
  /-- `RelationGetRelationName(rel)` -/
  relname : String
  /-- `RelationNeedsWAL(rel)`: false for UNLOGGED and TEMP tables -/
  needsWAL : Bool
  /-- `RelationGetNamespace(rel) == PG_CATALOG_NAMESPACE` -/
  isCatalogNamespace : Bool
  /-- `OidIsValid(rel->rd_replidindex)` after `RelationGetIndexList` -/
  hasReplicaIdentityIndex : Bool
deriving DecidableEq, Repr

/-- The fields of the planned statement consulted by `BdrExecutorStart`. -/
structure PlannedStmt where
  operation : CmdType
  hasModifyingCTE : Bool
  /-- `plannedstmt->rowMarks != NIL` -/
  hasRowMarks : Bool
  /-- the relations fetched from `resultRelations` via the range table -/
  resultRelations : List RelInfo
deriving DecidableEq, Repr

/-- Outcome of the gate: delegate to the previous/standard ExecutorStart
(`allowed`), or one of the `ereport(ERROR)` aborts.  `errReadOnly` carries the
message arguments (statement tag, relation name) of
`"%s may only affect UNLOGGED or TEMPORARY tables on read-only BDR node; %s is
a regular table"`; `errNoPrimaryKey` carries the relation name of
`"Cannot run UPDATE or DELETE on table %s because it does not have a PRIMARY
KEY."` with hint `"Add a PRIMARY KEY to the table"`. -/
inductive GateOutcome where
  | allowed
  | ddlLockConflict
  | errReadOnly (stmtTag relname : String)
  | errNoPrimaryKey (relname : String)
deriving DecidableEq, Repr

/-- `CreateWritableStmtTag`: `"DML"` for `CMD_SELECT` (SELECT INTO / wCTE),
otherwise the ordinary command tag. -/
def CreateWritableStmtTag (st : PlannedStmt) : String :=
  if st.operation = .select then "DML" else CreateCommandTag st.operation

/-- The `foreach` loop of `BdrExecutorStart` over the result relations:
skip relations that need no WAL (UNLOGGED/TEMP); skip `pg_catalog` relations;
on a read-only node reject the statement naming its tag and the relation;
otherwise reject unless the relation has a replica-identity index. -/
def check_result_relations (read_only_node : Bool) (stmtTag : String) :
    List RelInfo → GateOutcome
  | [] => .allowed
  | rel :: rest =>
    if !rel.needsWAL then check_result_relations read_only_node stmtTag rest
    else if rel.isCatalogNamespace then check_result_relations read_only_node stmtTag rest
    else if read_only_node then .errReadOnly stmtTag rel.relname
    else if rel.hasReplicaIdentityIndex then check_result_relations read_only_node stmtTag rest
    else .errNoPrimaryKey rel.relname

/-- `BdrExecutorStart(queryDesc, eflags)` up to the final delegation:
skip everything when `bdr_always_allow_writes` is set; classify the statement
(writes iff it has a modifying CTE, row marks, or is not a plain SELECT);
skip when the database is not BDR-activated; abort on a conflicting global DDL
lock (`bdr_locks_check_dml`); admit plain INSERT without modifying CTE on a
non-read-only node; otherwise run the per-relation loop. -/
def BdrExecutorStart (bdr_always_allow_writes bdr_activated_db read_only_node
    ddl_lock_conflict : Bool) (st : PlannedStmt) : GateOutcome :=
  if bdr_always_allow_writes then .allowed
  else
    let performs_writes :=
      st.hasModifyingCTE || st.hasRowMarks || decide (st.operation ≠ .select)
    if !performs_writes then .allowed
    else if !bdr_activated_db then .allowed
    else if ddl_lock_conflict then .ddlLockConflict
    else if st.operation = .insert && !st.hasModifyingCTE && !read_only_node then .allowed
    else check_result_relations read_only_node (CreateWritableStmtTag st) st.resultRelations

/-! ### Scan-key construction (`build_index_scan_key[s]`) -/

/-- One key column of an index as `build_index_scan_key` sees it:
`mainattno` is `indkey->values[attoff]` (the 1-based attribute number in the
main relation) and `eqop` is the `BTEqualStrategyNumber` member of the
column's operator family (`none` when `get_opfamily_member` finds no valid
operator, which raises `elog(ERROR, "could not lookup equality operator ...")`). -/
structure IdxCol where
  mainattno : Nat
  eqop : Option Nat
deriving DecidableEq, Repr

/-- What `build_index_scan_keys` reads about one index: the `IndexInfo`
eligibility flags and the key columns. -/
structure IndexMeta where
  ii_Unique : Bool
  /-- `ii_Expressions`; `NIL` is `[]` -/
  ii_Expressions : List Nat
  cols : List IdxCol
deriving DecidableEq, Repr

/-- `BDRTupleData`: the candidate row's values and null flags (1-based
attribute `a` lives at list index `a - 1`). -/
structure BDRTupleData where
  values : List Nat
  isnull : List Bool
deriving DecidableEq, Repr

/-- `BTEqualStrategyNumber` -/
def BTEqualStrategyNumber : Nat := 3

/-- One initialized scan key entry: `ScanKeyInit(&skey[attoff], pkattno,
BTEqualStrategyNumber, regop, tup->values[mainattno - 1])`, plus the
`SK_ISNULL` flag set afterwards when the row value is null. -/
structure ScanKeyEntry where
  sk_attno : Nat
  sk_strategy : Nat
  sk_procedure : Nat
  sk_argument : Nat
  sk_isnull : Bool
deriving DecidableEq, Repr

/-- The `for (attoff ...)` loop of `build_index_scan_key`, carrying the
1-based `pkattno` of the next entry; errors when an equality operator is
missing, otherwise returns the entries and the accumulated `hasnulls`. -/
def build_index_scan_key_loop (tup : BDRTupleData) :
    List IdxCol → Nat → Except Unit (List ScanKeyEntry × Bool)
  | [], _ => .ok ([], false)
  | c :: rest, pkattno =>
    match c.eqop with
    | none => .error ()
    | some regop =>
      match build_index_scan_key_loop tup rest (pkattno + 1) with
      | .error e => .error e
      | .ok (entries, hasnulls) =>
        let isn := tup.isnull.getD (c.mainattno - 1) false
        .ok (⟨pkattno, BTEqualStrategyNumber, regop,
              tup.values.getD (c.mainattno - 1) 0, isn⟩ :: entries,
             isn || hasnulls)

/-- `build_index_scan_key(skey, rel, idxrel, tup)`: builds the key entries
for all index attributes and reports whether any key column is null. -/
def build_index_scan_key (idx : IndexMeta) (tup : BDRTupleData) :
    Except Unit (List ScanKeyEntry × Bool) :=
  build_index_scan_key_loop tup idx.cols 1

/-- `build_index_scan_keys(estate, scan_keys, tup)`: per index, a `none`
entry for an index that is not unique or has expressions; a `none` entry for
an eligible index whose built key contains a null column (the key is built,
then freed); otherwise the built key. -/
def build_index_scan_keys (tup : BDRTupleData) :
    List IndexMeta → Except Unit (List (Option (List ScanKeyEntry)))
  | [] => .ok []
  | idx :: rest =>
    if !idx.ii_Unique || !idx.ii_Expressions.isEmpty then
      match build_index_scan_keys tup rest with
      | .error e => .error e
      | .ok out => .ok (none :: out)
    else
      match build_index_scan_key idx tup with
      | .error e => .error e
      | .ok (key, hasnulls) =>
        match build_index_scan_keys tup rest with
        | .error e => .error e
        | .ok out => .ok ((if hasnulls then none else some key) :: out)

/-- Whether any key column of `idx` is null in `tup` (the value
`build_index_scan_key` returns as `hasnulls` when it succeeds). -/
def index_key_has_nulls (idx : IndexMeta) (tup : BDRTupleData) : Bool :=
  idx.cols.any (fun c => tup.isnull.getD (c.mainattno - 1) false)

/-! ### Row lookup (`find_pkey_tuple`) -/

/-- `HTSU_Result`, the outcome of `heap_lock_tuple`. -/
inductive HTSUResult where
  | mayBeUpdated
  | invisible
  | selfUpdated
  | updated
  | beingUpdated
deriving DecidableEq, Repr

/-- The concurrent environment of one `find_pkey_tuple` call, indexed by the
retry-iteration counter: `scanMatches n` is the list of tuples the dirty index
scan would return (in index order) at iteration `n`; `xwait n` is the
in-progress transaction id (`snap.xmin` preferred over `snap.xmax`, `none`
when both are invalid) observed for the first match at iteration `n`;
`lockRes n` is the `heap_lock_tuple` result at iteration `n`. -/
structure ScanEnv where
  scanMatches : Nat → List Nat
  xwait : Nat → Option Nat
  lockRes : Nat → HTSUResult

/-- Result of `find_pkey_tuple`: the found tuple (stored in the slot, with
`true` returned), `notFound` (`false` returned), or the
`elog(ERROR, "unexpected HTSU_Result after locking: %u")` abort. -/
inductive FindResult where
  | found (t : Nat)
  | notFound
  | fatal (r : HTSUResult)
deriving DecidableEq, Repr

/-- The `retry:` loop of `find_pkey_tuple`, with explicit fuel (`none` means
the loop did not settle within `fuel` iterations; the C loop is unbounded).
`iter` counts rescans; `logs` counts `"concurrent update, retrying"` LOG
messages emitted so far.  Per iteration: rescan and take the first index
match; if none, return not-found; if the dirty snapshot shows an in-progress
writer, wait for it (`XactLockTableWait`) and rescan; if locking was
requested, a `HeapTupleUpdated` lock result logs and rescans, a
`HeapTupleMayBeUpdated` result returns the tuple, and any other result is a
fatal internal error. -/
def find_pkey_tuple_loop (env : ScanEnv) (lock : Bool) :
    Nat → Nat → Nat → Option (FindResult × Nat)
  | 0, _, _ => none
  | fuel + 1, iter, logs =>
    match (env.scanMatches iter).head? with
    | none => some (.notFound, logs)
    | some t =>
      match env.xwait iter with
      | some _ => find_pkey_tuple_loop env lock fuel (iter + 1) logs
      | none =>
        if lock then
          match env.lockRes iter with
          | .mayBeUpdated => some (.found t, logs)
          | .updated => find_pkey_tuple_loop env lock fuel (iter + 1) (logs + 1)
          | r => some (.fatal r, logs)
        else some (.found t, logs)

/-- `find_pkey_tuple(skey, rel, idxrel, slot, lock, mode)`: run the retry
loop from iteration 0 with no log messages emitted yet. -/
def find_pkey_tuple (env : ScanEnv) (lock : Bool) (fuel : Nat) :
    Option (FindResult × Nat) :=
  find_pkey_tuple_loop env lock fuel 0 0

/-! ### Example fixtures -/

/-- A session state with no guard set, empty queues. -/
def exState : BdrState := ⟨false, 0, false, 10, 20, "alice", [], [], []⟩

/-- A session state with the local-DDL recursion guard set. -/
def exGuardState : BdrState := ⟨true, 0, false, 10, 20, "alice", [], [], []⟩

/-! ### C2 -/

/-- C2 counterexample: `bdr_queue_ddl_command` does not check the recursion
guards.  With `in_bdr_replicate_ddl_command` set, a call still appends a
QueuedCommand row, so the call is not a silent no-op as claimed. -/
theorem bdr_queue_ddl_command_guard_set_still_appends_cex :
    exGuardState.in_bdr_replicate_ddl_command = true ∧
    (bdr_queue_ddl_command "SQL" "CREATE TABLE t ()" exGuardState).queued_commands.length
      = exGuardState.queued_commands.length + 1 :=
  ⟨rfl, rfl⟩

/-- C2 (amended): `bdr_queue_ddl_command` itself performs no guard or
configuration checks and always appends exactly one QueuedCommand row; the
short-circuit on the recursion guards and on `bdr.skip_ddl_replication`
belongs to the `ddl_command_end` caller `bdr_queue_ddl_commands`, which is a
silent no-op whenever the local-DDL guard is set, a remote origin is being
replayed, or the configuration switch is active.  (Each caller performs its
own subset of these checks: `bdr_queue_truncate` checks only the two
recursion guards, never the switch, and `bdr_finish_truncate` enqueues
unconditionally.) -/
theorem bdr_queue_ddl_command_always_appends (tag cmd : String)
    (rows : List CommandRow) (s : BdrState) :
    (bdr_queue_ddl_command tag cmd s).queued_commands
      = s.queued_commands
          ++ [⟨s.current_lsn, s.current_time, s.current_user, tag, cmd⟩]
    ∧ (s.in_bdr_replicate_ddl_command = true ∨ s.replication_origin_id ≠ 0 ∨
         s.skip_ddl_replication = true →
       bdr_queue_ddl_commands rows s = s) := by
  refine ⟨rfl, ?_⟩
  intro h
  by_cases hg : s.in_bdr_replicate_ddl_command <;>
    by_cases ho : s.replication_origin_id = 0 <;>
      by_cases hs : s.skip_ddl_replication <;>
        simp_all [bdr_queue_ddl_commands]

/-- Witness for the amended C2 at a concrete state with the guard set. -/
theorem bdr_queue_ddl_command_always_appends_witness :
    (bdr_queue_ddl_command "SQL" "x" exGuardState).queued_commands
      = exGuardState.queued_commands ++ [⟨10, 20, "alice", "SQL", "x"⟩]
    ∧ bdr_queue_ddl_commands [] exGuardState = exGuardState :=
  ⟨(bdr_queue_ddl_command_always_appends "SQL" "x" [] exGuardState).1,
   (bdr_queue_ddl_command_always_appends "SQL" "x" [] exGuardState).2
     (Or.inl rfl)⟩

/-! ### C3 -/

/-- C3: `bdr_replicate_ddl_command` enqueues exactly one QueuedCommand row
(tag `"SQL"`) for the given text on its success path, regardless of which
command rows the `ddl_command_end` callback observes during the local
execution: the callback runs while `in_bdr_replicate_ddl_command` is set and
is therefore suppressed. -/
theorem bdr_replicate_ddl_command_enqueues_exactly_once (query : String)
    (ddlRows : List CommandRow) (s : BdrState) :
    (bdr_replicate_ddl_command query ddlRows true true s).2.queued_commands
      = s.queued_commands
          ++ [⟨s.current_lsn, s.current_time, s.current_user, "SQL", query⟩] := by
  simp [bdr_replicate_ddl_command, bdr_queue_ddl_commands, bdr_queue_ddl_command]

/-! ### C4 -/

/-- C4: on every exit path of `bdr_replicate_ddl_command` — normal
completion, a failing enqueue, or a failing local execution — the
`in_bdr_replicate_ddl_command` guard is false again when control returns. -/
theorem bdr_replicate_ddl_command_guard_cleared (query : String)
    (ddlRows : List CommandRow) (enqueueOk execOk : Bool) (s : BdrState) :
    (bdr_replicate_ddl_command query ddlRows enqueueOk execOk s).2.in_bdr_replicate_ddl_command
      = false := by
  unfold bdr_replicate_ddl_command
  cases enqueueOk <;> cases execOk <;> simp

/-! ### C6 -/

/-- C6: truncating `t1` then `t2` in one transaction (guards clear) and then
flushing produces exactly one QueuedCommand, tagged `"TRUNCATE (automatic)"`
with text `"TRUNCATE TABLE ONLY <t1>, <t2>"` in registration order, and
clears the batch; flushing an empty batch is a no-op. -/
theorem bdr_truncate_batch_one_consolidated_command (t1 t2 : Nat)
    (qualname : Nat → String) (s : BdrState)
    (hg : s.in_bdr_replicate_ddl_command = false)
    (ho : s.replication_origin_id = 0) :
    (bdr_finish_truncate qualname
        (bdr_queue_truncate t2 (bdr_queue_truncate t1 (bdr_start_truncate s)))).queued_commands
      = s.queued_commands
          ++ [⟨s.current_lsn, s.current_time, s.current_user, "TRUNCATE (automatic)",
               "TRUNCATE TABLE ONLY " ++ qualname t1 ++ ", " ++ qualname t2⟩]
    ∧ (bdr_finish_truncate qualname
        (bdr_queue_truncate t2 (bdr_queue_truncate t1 (bdr_start_truncate s)))).bdr_truncated_tables
      = []
    ∧ (∀ s' : BdrState, s'.bdr_truncated_tables = [] →
        bdr_finish_truncate qualname s' = s') := by
  refine ⟨?_, ?_, ?_⟩
  · simp [bdr_start_truncate, bdr_queue_truncate, bdr_finish_truncate,
      truncate_command_text, bdr_queue_ddl_command, hg, ho,
      String.append_assoc]
  · simp [bdr_start_truncate, bdr_queue_truncate, bdr_finish_truncate,
      bdr_queue_ddl_command, hg, ho]
  · intro s' h
    simp [bdr_finish_truncate, h]

/-- Witness for C6 at a concrete state and name mapping. -/
theorem bdr_truncate_batch_one_consolidated_command_witness :
    (bdr_finish_truncate (fun n => "public.t" ++ toString n)
        (bdr_queue_truncate 2 (bdr_queue_truncate 1 (bdr_start_truncate exState)))).queued_commands
      = exState.queued_commands
          ++ [⟨exState.current_lsn, exState.current_time, exState.current_user,
               "TRUNCATE (automatic)",
               "TRUNCATE TABLE ONLY " ++ "public.t" ++ toString 1 ++ ", "
                 ++ ("public.t" ++ toString 2)⟩]
    ∧ (bdr_finish_truncate (fun n => "public.t" ++ toString n)
        (bdr_queue_truncate 2 (bdr_queue_truncate 1 (bdr_start_truncate exState)))).bdr_truncated_tables
      = []
    ∧ (∀ s' : BdrState, s'.bdr_truncated_tables = [] →
        bdr_finish_truncate (fun n => "public.t" ++ toString n) s' = s') :=
  bdr_truncate_batch_one_consolidated_command 1 2
    (fun n => "public.t" ++ toString n) exState rfl rfl

/-! ### C7 -/

/-- A dropped-objects row that is flagged original and lives in the
temporary schema. -/
def exTempDropRow : DropRow :=
  ⟨some true, some false, some "table", some ["pg_temp", "tt"], some []⟩

/-- C7 counterexample: `bdr_queue_dropped_objects` performs no
temporary-schema filtering.  A drop record flagged original whose qualified
name lives in `pg_temp` is kept and appears in the single QueuedDropSet
payload, contradicting "temporary-schema objects are discarded". -/
theorem bdr_queue_dropped_objects_keeps_temp_schema_cex :
    (bdr_queue_dropped_objects [exTempDropRow] exState).queued_drops
      = [[drop_row_payload exTempDropRow]]
    ∧ is_temp_schema_object (drop_row_payload exTempDropRow) = true :=
  ⟨rfl, rfl⟩

/-- C7 (amended): past the recursion guards and the configuration switch,
`bdr_queue_dropped_objects` keeps exactly the rows flagged original or
normal (there is no temporary-schema filtering), batches all kept rows into
one array payload appended as a single QueuedDropSet row, and appends
nothing when no row survives.  In particular a row flagged neither original
nor normal never contributes to any payload. -/
theorem bdr_queue_dropped_objects_batches_kept_rows (rows : List DropRow)
    (s : BdrState)
    (hg : s.in_bdr_replicate_ddl_command = false)
    (ho : s.replication_origin_id = 0)
    (hs : s.skip_ddl_replication = false) :
    (∀ r : DropRow, drop_row_skipped r = false ↔
       (r.original = some true ∨ r.normal = some true))
    ∧ (rows.filter (fun r => !drop_row_skipped r) = [] →
        bdr_queue_dropped_objects rows s = s)
    ∧ (rows.filter (fun r => !drop_row_skipped r) ≠ [] →
        (bdr_queue_dropped_objects rows s).queued_drops
          = s.queued_drops
              ++ [(rows.filter (fun r => !drop_row_skipped r)).map drop_row_payload])
    ∧ (∀ payload ∈ (bdr_queue_dropped_objects rows s).queued_drops,
        payload ∈ s.queued_drops ∨
          ∀ d ∈ payload, ∃ r ∈ rows, drop_row_skipped r = false ∧
            d = drop_row_payload r) := by
  refine ⟨?_, ?_, ?_, ?_⟩
  · intro r
    rcases r with ⟨o, n, a, b, c⟩
    have hfin : ∀ x y : Option Bool,
        ((x.isNone || !(x.getD false)) && (y.isNone || !(y.getD false))) = false
          ↔ (x = some true ∨ y = some true) := by decide
    simpa [drop_row_skipped] using hfin o n
  · intro h
    simp [bdr_queue_dropped_objects, hg, ho, hs, h]
  · intro h
    simp [bdr_queue_dropped_objects, hg, ho, hs, List.isEmpty_iff, h]
  · intro payload hp
    simp only [bdr_queue_dropped_objects, hg, ho, hs] at hp
    simp only [Bool.false_eq_true, if_false, ne_eq, not_true_eq_false] at hp
    by_cases hk : (rows.filter (fun r => !drop_row_skipped r)).isEmpty
    · rw [if_pos hk] at hp
      exact Or.inl hp
    · rw [if_neg hk] at hp
      simp only [List.mem_append, List.mem_singleton] at hp
      rcases hp with hp | hp
      · exact Or.inl hp
      · right
        intro d hd
        subst hp
        rcases List.mem_map.mp hd with ⟨r, hr, rfl⟩
        have hr' := List.mem_filter.mp hr
        exact ⟨r, hr'.1, by simpa using hr'.2, rfl⟩

/-! ### WriteGate helper lemmas -/

/-- If every result relation is UNLOGGED/TEMP or in `pg_catalog`, the
per-relation loop admits the statement. -/
lemma check_result_relations_all_skipped (ro : Bool) (tag : String) :
    ∀ rels : List RelInfo,
      (∀ r ∈ rels, r.needsWAL = false ∨ r.isCatalogNamespace = true) →
      check_result_relations ro tag rels = .allowed := by
  intro rels
  induction rels with
  | nil => intro _; rfl
  | cons rel rest ih =>
    intro h
    have hrel := h rel (List.mem_cons_self rel rest)
    have hrest : ∀ r ∈ rest, r.needsWAL = false ∨ r.isCatalogNamespace = true :=
      fun r hr => h r (List.mem_cons_of_mem rel hr)
    rcases hrel with hw | hc
    · simp [check_result_relations, hw, ih hrest]
    · by_cases hw : rel.needsWAL <;>
        simp [check_result_relations, hw, hc, ih hrest]

/-- On a non-read-only node, if some result relation is durable, outside
`pg_catalog` and lacks a replica-identity index, the loop rejects with the
no-primary-key error naming such a relation. -/
lemma check_result_relations_rejects_no_pk (tag : String) :
    ∀ rels : List RelInfo,
      (∃ r ∈ rels, r.needsWAL = true ∧ r.isCatalogNamespace = false ∧
         r.hasReplicaIdentityIndex = false) →
      ∃ r ∈ rels, r.needsWAL = true ∧ r.isCatalogNamespace = false ∧
        r.hasReplicaIdentityIndex = false ∧
        check_result_relations false tag rels = .errNoPrimaryKey r.relname := by
  intro rels
  induction rels with
  | nil => rintro ⟨r, hr, -⟩; exact absurd hr (List.not_mem_nil r)
  | cons rel rest ih =>
    rintro ⟨r, hr, hw, hc, hi⟩
    by_cases hw0 : rel.needsWAL
    · by_cases hc0 : rel.isCatalogNamespace
      · have hr' : r ∈ rest := by
          rcases List.mem_cons.mp hr with rfl | h
          · exact absurd hc0 (by simp [hc])
          · exact h
        rcases ih ⟨r, hr', hw, hc, hi⟩ with ⟨r', hr'', hprops⟩
        exact ⟨r', List.mem_cons_of_mem rel hr'',
          by simpa [check_result_relations, hw0, hc0] using hprops⟩
      · by_cases hi0 : rel.hasReplicaIdentityIndex
        · have hr' : r ∈ rest := by
            rcases List.mem_cons.mp hr with rfl | h
            · exact absurd hi0 (by simp [hi])
            · exact h
          rcases ih ⟨r, hr', hw, hc, hi⟩ with ⟨r', hr'', hprops⟩
          exact ⟨r', List.mem_cons_of_mem rel hr'',
            by simpa [check_result_relations, hw0, hc0, hi0] using hprops⟩
        · refine ⟨rel, List.mem_cons_self rel rest, by simp [hw0], by simp [hc0],
            by simp [hi0], ?_⟩
          simp [check_result_relations, hw0, hc0, hi0]
    · have hr' : r ∈ rest := by
        rcases List.mem_cons.mp hr with rfl | h
        · exact absurd hw (by simp [hw0])
        · exact h
      rcases ih ⟨r, hr', hw, hc, hi⟩ with ⟨r', hr'', hprops⟩
      exact ⟨r', List.mem_cons_of_mem rel hr'',
        by simpa [check_result_relations, hw0] using hprops⟩

/-- On a read-only node, if some result relation is durable and outside
`pg_catalog`, the loop rejects with the read-only error naming the statement
tag and such a relation. -/
lemma check_result_relations_rejects_read_only (tag : String) :
    ∀ rels : List RelInfo,
      (∃ r ∈ rels, r.needsWAL = true ∧ r.isCatalogNamespace = false) →
      ∃ r ∈ rels, r.needsWAL = true ∧ r.isCatalogNamespace = false ∧
        check_result_relations true tag rels = .errReadOnly tag r.relname := by
  intro rels
  induction rels with
  | nil => rintro ⟨r, hr, -⟩; exact absurd hr (List.not_mem_nil r)
  | cons rel rest ih =>
    rintro ⟨r, hr, hw, hc⟩
    by_cases hw0 : rel.needsWAL
    · by_cases hc0 : rel.isCatalogNamespace
      · have hr' : r ∈ rest := by
          rcases List.mem_cons.mp hr with rfl | h
          · exact absurd hc0 (by simp [hc])
          · exact h
        rcases ih ⟨r, hr', hw, hc⟩ with ⟨r', hr'', hprops⟩
        exact ⟨r', List.mem_cons_of_mem rel hr'',
          by simpa [check_result_relations, hw0, hc0] using hprops⟩
      · exact ⟨rel, List.mem_cons_self rel rest, by simp [hw0], by simp [hc0],
          by simp [check_result_relations, hw0, hc0]⟩
    · have hr' : r ∈ rest := by
        rcases List.mem_cons.mp hr with rfl | h
        · exact absurd hw (by simp [hw0])
        · exact h
      rcases ih ⟨r, hr', hw, hc⟩ with ⟨r', hr'', hprops⟩
      exact ⟨r', List.mem_cons_of_mem rel hr'',
        by simpa [check_result_relations, hw0] using hprops⟩

/-! ### C1 -/

/-- C1: on a non-read-only, replication-enabled node (no override, no DDL
lock conflict), the gate admits a plain INSERT with no modifying CTE even
when its tables have no replica identity, but rejects an UPDATE or DELETE
whose target tables include a durable, non-catalog table without a
replica-identity index, with the no-primary-key error (message naming the
table, hint recommending a primary key). -/
theorem bdr_executor_start_insert_ok_update_delete_rejected (st : PlannedStmt) :
    (st.operation = .insert → st.hasModifyingCTE = false →
       BdrExecutorStart false true false false st = .allowed)
    ∧ ((st.operation = .update ∨ st.operation = .delete) →
       (∃ r ∈ st.resultRelations, r.needsWAL = true ∧ r.isCatalogNamespace = false ∧
          r.hasReplicaIdentityIndex = false) →
       ∃ r ∈ st.resultRelations, r.needsWAL = true ∧ r.isCatalogNamespace = false ∧
         r.hasReplicaIdentityIndex = false ∧
         BdrExecutorStart false true false false st = .errNoPrimaryKey r.relname) := by
  constructor
  · intro hop hcte
    simp [BdrExecutorStart, hop, hcte]
  · intro hop hex
    rcases check_result_relations_rejects_no_pk (CreateWritableStmtTag st)
        st.resultRelations hex with ⟨r, hr, hw, hc, hi, heq⟩
    refine ⟨r, hr, hw, hc, hi, ?_⟩
    rcases hop with hop | hop <;> simp [BdrExecutorStart, hop, heq]

/-- Witness for C1: a plain INSERT into a durable table with no replica
identity is admitted; an UPDATE on the same table is rejected naming it. -/
theorem bdr_executor_start_insert_ok_update_delete_rejected_witness :
    BdrExecutorStart false true false false
        ⟨.insert, false, false, [⟨"t", true, false, false⟩]⟩ = .allowed
    ∧ ∃ r ∈ [RelInfo.mk "t" true false false],
        r.needsWAL = true ∧ r.isCatalogNamespace = false ∧
        r.hasReplicaIdentityIndex = false ∧
        BdrExecutorStart false true false false
          ⟨.update, false, false, [⟨"t", true, false, false⟩]⟩
          = .errNoPrimaryKey r.relname :=
  ⟨(bdr_executor_start_insert_ok_update_delete_rejected
      ⟨.insert, false, false, [⟨"t", true, false, false⟩]⟩).1 rfl rfl,
   (bdr_executor_start_insert_ok_update_delete_rejected
      ⟨.update, false, false, [⟨"t", true, false, false⟩]⟩).2 (Or.inl rfl)
     ⟨⟨"t", true, false, false⟩, List.mem_cons_self _ _, rfl, rfl, rfl⟩⟩

/-! ### C5 -/

/-- C5: on a read-only, replication-enabled node, any write-performing
statement targeting a durable non-catalog table is rejected with the
read-only error carrying the statement's writable tag and such a table's
name; a write whose target tables are all UNLOGGED/TEMP or catalog tables is
admitted. -/
theorem bdr_executor_start_read_only_node (st : PlannedStmt)
    (hw : st.hasModifyingCTE = true ∨ st.hasRowMarks = true ∨
          st.operation ≠ .select) :
    ((∃ r ∈ st.resultRelations, r.needsWAL = true ∧ r.isCatalogNamespace = false) →
       ∃ r ∈ st.resultRelations, r.needsWAL = true ∧ r.isCatalogNamespace = false ∧
         BdrExecutorStart false true true false st
           = .errReadOnly (CreateWritableStmtTag st) r.relname)
    ∧ ((∀ r ∈ st.resultRelations, r.needsWAL = false ∨ r.isCatalogNamespace = true) →
       BdrExecutorStart false true true false st = .allowed) := by
  have hpw : (st.hasModifyingCTE || st.hasRowMarks ||
      decide (st.operation ≠ .select)) = true := by
    rcases hw with h | h | h <;> simp [h]
  constructor
  · intro hex
    rcases check_result_relations_rejects_read_only (CreateWritableStmtTag st)
        st.resultRelations hex with ⟨r, hr, hwal, hc, heq⟩
    refine ⟨r, hr, hwal, hc, ?_⟩
    simp [BdrExecutorStart, heq]
    intro h1 h2
    rcases hw with h | h | h
    · exact absurd h (by simp [h1])
    · exact absurd h (by simp [h2])
    · exact h
  · intro hall
    simp [BdrExecutorStart,
      check_result_relations_all_skipped true (CreateWritableStmtTag st)
        st.resultRelations hall]

/-- Witness for C5: on a read-only node an UPDATE on a durable table is
rejected with the read-only error, and an UPDATE touching only an UNLOGGED
table is admitted. -/
theorem bdr_executor_start_read_only_node_witness :
    (∃ r ∈ [RelInfo.mk "orders" true false true],
       r.needsWAL = true ∧ r.isCatalogNamespace = false ∧
       BdrExecutorStart false true true false
         ⟨.update, false, false, [⟨"orders", true, false, true⟩]⟩
         = .errReadOnly
             (CreateWritableStmtTag ⟨.update, false, false, [⟨"orders", true, false, true⟩]⟩)
             r.relname)
    ∧ BdrExecutorStart false true true false
        ⟨.update, false, false, [⟨"scratch", false, false, false⟩]⟩ = .allowed :=
  ⟨(bdr_executor_start_read_only_node
      ⟨.update, false, false, [⟨"orders", true, false, true⟩]⟩
      (Or.inr (Or.inr (by simp)))).1
     ⟨⟨"orders", true, false, true⟩, List.mem_cons_self _ _, rfl, rfl⟩,
   (bdr_executor_start_read_only_node
      ⟨.update, false, false, [⟨"scratch", false, false, false⟩]⟩
      (Or.inr (Or.inr (by simp)))).2
     (by intro r hr; simp at hr; simp [hr])⟩

/-- Witness for the amended C7: no surviving rows is a no-op; a surviving
(original) row yields one appended payload. -/
theorem bdr_queue_dropped_objects_batches_kept_rows_witness :
    bdr_queue_dropped_objects [] exState = exState
    ∧ (bdr_queue_dropped_objects [exTempDropRow] exState).queued_drops
        = exState.queued_drops
            ++ [([exTempDropRow].filter (fun r => !drop_row_skipped r)).map drop_row_payload] :=
  ⟨(bdr_queue_dropped_objects_batches_kept_rows [] exState rfl rfl rfl).2.1 rfl,
   (bdr_queue_dropped_objects_batches_kept_rows [exTempDropRow] exState rfl rfl rfl).2.2.1
     (by decide)⟩

/-! ### C8 -/

/-- Unfolding: a rescan with no match returns not-found. -/
lemma find_pkey_tuple_loop_no_match (env : ScanEnv) (lock : Bool)
    (fuel iter logs : Nat) (h : (env.scanMatches iter).head? = none) :
    find_pkey_tuple_loop env lock (fuel + 1) iter logs = some (.notFound, logs) := by
  rw [find_pkey_tuple_loop, h]

/-- Unfolding: an in-progress writer on the first match causes a wait and a
full rescan. -/
lemma find_pkey_tuple_loop_xwait (env : ScanEnv) (lock : Bool)
    (fuel iter logs t x : Nat) (h1 : (env.scanMatches iter).head? = some t)
    (h2 : env.xwait iter = some x) :
    find_pkey_tuple_loop env lock (fuel + 1) iter logs
      = find_pkey_tuple_loop env lock fuel (iter + 1) logs := by
  rw [find_pkey_tuple_loop, h1, h2]

/-- Unfolding: without locking, a settled first match is returned. -/
lemma find_pkey_tuple_loop_no_lock (env : ScanEnv)
    (fuel iter logs t : Nat) (h1 : (env.scanMatches iter).head? = some t)
    (h2 : env.xwait iter = none) :
    find_pkey_tuple_loop env false (fuel + 1) iter logs = some (.found t, logs) := by
  rw [find_pkey_tuple_loop, h1, h2]
  rfl

/-- Unfolding: with locking, a granted lock returns the match. -/
lemma find_pkey_tuple_loop_lock_ok (env : ScanEnv)
    (fuel iter logs t : Nat) (h1 : (env.scanMatches iter).head? = some t)
    (h2 : env.xwait iter = none) (h3 : env.lockRes iter = .mayBeUpdated) :
    find_pkey_tuple_loop env true (fuel + 1) iter logs = some (.found t, logs) := by
  rw [find_pkey_tuple_loop, h1, h2, h3]
  rfl

/-- Unfolding: with locking, a concurrently-updated lock result logs and
restarts from step 1. -/
lemma find_pkey_tuple_loop_lock_retry (env : ScanEnv)
    (fuel iter logs t : Nat) (h1 : (env.scanMatches iter).head? = some t)
    (h2 : env.xwait iter = none) (h3 : env.lockRes iter = .updated) :
    find_pkey_tuple_loop env true (fuel + 1) iter logs
      = find_pkey_tuple_loop env true fuel (iter + 1) (logs + 1) := by
  rw [find_pkey_tuple_loop, h1, h2, h3]
  rfl

/-- Unfolding: with locking, any other lock result is the fatal internal
error. -/
lemma find_pkey_tuple_loop_lock_fatal (env : ScanEnv)
    (fuel iter logs t : Nat) (res : HTSUResult)
    (h1 : (env.scanMatches iter).head? = some t)
    (h2 : env.xwait iter = none) (h3 : env.lockRes iter = res)
    (h4 : res ≠ .mayBeUpdated) (h5 : res ≠ .updated) :
    find_pkey_tuple_loop env true (fuel + 1) iter logs = some (.fatal res, logs) := by
  cases res with
  | mayBeUpdated => exact absurd rfl h4
  | updated => exact absurd rfl h5
  | invisible =>
    rw [find_pkey_tuple_loop, h1, h2, h3]
    rfl
  | selfUpdated =>
    rw [find_pkey_tuple_loop, h1, h2, h3]
    rfl
  | beingUpdated =>
    rw [find_pkey_tuple_loop, h1, h2, h3]
    rfl

/-- Any tuple returned by the retry loop is the first index match of some
rescan iteration, and a not-found result comes from a rescan with no match. -/
lemma find_pkey_tuple_loop_characterization (env : ScanEnv) (lock : Bool) :
    ∀ (fuel iter logs : Nat) (r : FindResult) (n : Nat),
      find_pkey_tuple_loop env lock fuel iter logs = some (r, n) →
      (∀ t, r = .found t → ∃ k, iter ≤ k ∧ (env.scanMatches k).head? = some t)
      ∧ (r = .notFound → ∃ k, iter ≤ k ∧ env.scanMatches k = []) := by
  intro fuel
  induction fuel with
  | zero => intro iter logs r n h; exact absurd h (by simp [find_pkey_tuple_loop])
  | succ fuel ih =>
    intro iter logs r n h
    cases hm : (env.scanMatches iter).head? with
    | none =>
      rw [find_pkey_tuple_loop_no_match env lock fuel iter logs hm] at h
      injection h with h'
      injection h' with h1 h2
      subst h1
      refine ⟨fun t ht => absurd ht (by simp), fun _ => ?_⟩
      exact ⟨iter, le_refl iter, List.head?_eq_none_iff.mp hm⟩
    | some t =>
      cases hx : env.xwait iter with
      | some x =>
        rw [find_pkey_tuple_loop_xwait env lock fuel iter logs t x hm hx] at h
        have hrec := ih (iter + 1) logs r n h
        refine ⟨fun u hu => ?_, fun hnf => ?_⟩
        · rcases hrec.1 u hu with ⟨k, hk, hk'⟩
          exact ⟨k, Nat.le_of_succ_le hk, hk'⟩
        · rcases hrec.2 hnf with ⟨k, hk, hk'⟩
          exact ⟨k, Nat.le_of_succ_le hk, hk'⟩
      | none =>
        cases lock with
        | false =>
          rw [find_pkey_tuple_loop_no_lock env fuel iter logs t hm hx] at h
          injection h with h'
          injection h' with h1 h2
          subst h1
          refine ⟨fun u hu => ?_, fun hnf => absurd hnf (by simp)⟩
          injection hu with h''
          subst h''
          exact ⟨iter, le_refl iter, hm⟩
        | true =>
          cases hres : env.lockRes iter with
          | mayBeUpdated =>
            rw [find_pkey_tuple_loop_lock_ok env fuel iter logs t hm hx hres] at h
            injection h with h'
            injection h' with h1 h2
            subst h1
            refine ⟨fun u hu => ?_, fun hnf => absurd hnf (by simp)⟩
            injection hu with h''
            subst h''
            exact ⟨iter, le_refl iter, hm⟩
          | updated =>
            rw [find_pkey_tuple_loop_lock_retry env fuel iter logs t hm hx hres] at h
            have hrec := ih (iter + 1) (logs + 1) r n h
            refine ⟨fun u hu => ?_, fun hnf => ?_⟩
            · rcases hrec.1 u hu with ⟨k, hk, hk'⟩
              exact ⟨k, Nat.le_of_succ_le hk, hk'⟩
            · rcases hrec.2 hnf with ⟨k, hk, hk'⟩
              exact ⟨k, Nat.le_of_succ_le hk, hk'⟩
          | invisible =>
            rw [find_pkey_tuple_loop_lock_fatal env fuel iter logs t _ hm hx hres
              (by decide) (by decide)] at h
            injection h with h'
            injection h' with h1 h2
            subst h1
            exact ⟨fun u hu => absurd hu (by simp), fun hnf => absurd hnf (by simp)⟩
          | selfUpdated =>
            rw [find_pkey_tuple_loop_lock_fatal env fuel iter logs t _ hm hx hres
              (by decide) (by decide)] at h
            injection h with h'
            injection h' with h1 h2
            subst h1
            exact ⟨fun u hu => absurd hu (by simp), fun hnf => absurd hnf (by simp)⟩
          | beingUpdated =>
            rw [find_pkey_tuple_loop_lock_fatal env fuel iter logs t _ hm hx hres
              (by decide) (by decide)] at h
            injection h with h'
            injection h' with h1 h2
            subst h1
            exact ⟨fun u hu => absurd hu (by simp), fun hnf => absurd hnf (by simp)⟩

/-- C8: when `find_pkey_tuple` settles, it yields at most one row: a found
row is exactly the first index match of one of its dirty rescans, a
not-found result reflects a rescan with no surviving match, and two distinct
rows are never returned for the same key. -/
theorem find_pkey_tuple_at_most_one_row (env : ScanEnv) (lock : Bool)
    (fuel : Nat) (r : FindResult) (n : Nat)
    (h : find_pkey_tuple env lock fuel = some (r, n)) :
    (∀ t, r = .found t → ∃ k, (env.scanMatches k).head? = some t)
    ∧ (r = .notFound → ∃ k, env.scanMatches k = [])
    ∧ (∀ t u, r = .found t → r = .found u → t = u) := by
  have hc := find_pkey_tuple_loop_characterization env lock fuel 0 0 r n h
  refine ⟨fun t ht => ?_, fun hnf => ?_, fun t u ht hu => ?_⟩
  · rcases hc.1 t ht with ⟨k, _, hk⟩
    exact ⟨k, hk⟩
  · rcases hc.2 hnf with ⟨k, _, hk⟩
    exact ⟨k, hk⟩
  · rw [ht] at hu
    injection hu

/-- A quiescent environment: one candidate row, no in-progress writer, lock
always granted. -/
def exQuietEnv : ScanEnv := ⟨fun _ => [5], fun _ => none, fun _ => .mayBeUpdated⟩

/-- Witness for C8 in the quiescent environment: the call returns row 5,
which is the first match of iteration 0. -/
theorem find_pkey_tuple_at_most_one_row_witness :
    (∀ t, FindResult.found 5 = .found t →
       ∃ k, (exQuietEnv.scanMatches k).head? = some t)
    ∧ (FindResult.found 5 = .notFound → ∃ k, exQuietEnv.scanMatches k = [])
    ∧ (∀ t u, FindResult.found 5 = .found t → FindResult.found 5 = .found u →
       t = u) :=
  find_pkey_tuple_at_most_one_row exQuietEnv true 1 (.found 5) 0 rfl

/-! ### C9 -/

/-- C9: at a locking iteration whose rescan found a match with no
in-progress writer: a `HeapTupleUpdated` lock result makes the loop emit one
`"concurrent update, retrying"` log message and restart from step 1 (a full
rescan at the next iteration); any other non-success result is the fatal
internal error carrying that result; success returns the found row. -/
theorem find_pkey_tuple_lock_outcomes (env : ScanEnv) (fuel iter logs t : Nat)
    (hm : (env.scanMatches iter).head? = some t)
    (hx : env.xwait iter = none) :
    (env.lockRes iter = .updated →
       find_pkey_tuple_loop env true (fuel + 1) iter logs
         = find_pkey_tuple_loop env true fuel (iter + 1) (logs + 1))
    ∧ (∀ res, env.lockRes iter = res → res ≠ .mayBeUpdated → res ≠ .updated →
       find_pkey_tuple_loop env true (fuel + 1) iter logs = some (.fatal res, logs))
    ∧ (env.lockRes iter = .mayBeUpdated →
       find_pkey_tuple_loop env true (fuel + 1) iter logs = some (.found t, logs)) :=
  ⟨fun hres => find_pkey_tuple_loop_lock_retry env fuel iter logs t hm hx hres,
   fun res hres h1 h2 =>
     find_pkey_tuple_loop_lock_fatal env fuel iter logs t res hm hx hres h1 h2,
   fun hres => find_pkey_tuple_loop_lock_ok env fuel iter logs t hm hx hres⟩

/-- An environment whose first lock attempt reports a concurrent update and
whose later ones succeed. -/
def exRetryEnv : ScanEnv :=
  ⟨fun _ => [7], fun _ => none, fun k => if k = 0 then .updated else .mayBeUpdated⟩

/-- An environment whose lock attempt reports an unexpected result. -/
def exFatalEnv : ScanEnv := ⟨fun _ => [7], fun _ => none, fun _ => .beingUpdated⟩

/-- Witness for C9: the retry, fatal and success behaviors at iteration 0 of
three concrete environments. -/
theorem find_pkey_tuple_lock_outcomes_witness :
    find_pkey_tuple_loop exRetryEnv true 2 0 0
      = find_pkey_tuple_loop exRetryEnv true 1 1 1
    ∧ find_pkey_tuple_loop exFatalEnv true 1 0 0
      = some (.fatal .beingUpdated, 0)
    ∧ find_pkey_tuple_loop exQuietEnv true 1 0 0 = some (.found 5, 0) :=
  ⟨(find_pkey_tuple_lock_outcomes exRetryEnv 1 0 0 7 rfl rfl).1 rfl,
   (find_pkey_tuple_lock_outcomes exFatalEnv 0 0 0 7 rfl rfl).2.1 .beingUpdated rfl
     (by decide) (by decide),
   (find_pkey_tuple_lock_outcomes exQuietEnv 0 0 0 5 rfl rfl).2.2 rfl⟩

/-! ### C10 -/

/-- The `hasnulls` flag returned by a successful `build_index_scan_key` run
is exactly "some key column is null in the row", and when it is false no
produced entry carries `SK_ISNULL`. -/
lemma build_index_scan_key_loop_spec (tup : BDRTupleData) :
    ∀ (cols : List IdxCol) (pk : Nat) (es : List ScanKeyEntry) (hn : Bool),
      build_index_scan_key_loop tup cols pk = .ok (es, hn) →
      hn = cols.any (fun c => tup.isnull.getD (c.mainattno - 1) false)
      ∧ (hn = false → ∀ e ∈ es, e.sk_isnull = false) := by
  intro cols
  induction cols with
  | nil =>
    intro pk es hn h
    rw [build_index_scan_key_loop] at h
    simp only [Except.ok.injEq, Prod.mk.injEq] at h
    obtain ⟨h1, h2⟩ := h
    subst h1
    subst h2
    exact ⟨by simp, fun _ e he => absurd he (List.not_mem_nil e)⟩
  | cons c rest ih =>
    intro pk es hn h
    rw [build_index_scan_key_loop] at h
    cases hc : c.eqop with
    | none => rw [hc] at h; exact absurd h (by simp)
    | some regop =>
      simp only [hc] at h
      cases hrec : build_index_scan_key_loop tup rest (pk + 1) with
      | error e =>
        simp only [hrec] at h
        exact absurd h (by simp)
      | ok p =>
        obtain ⟨es', hn'⟩ := p
        simp only [hrec, Except.ok.injEq, Prod.mk.injEq] at h
        obtain ⟨h1, h2⟩ := h
        subst h1
        subst h2
        obtain ⟨hhn', hes'⟩ := ih (pk + 1) es' hn' hrec
        constructor
        · simp [List.any_cons, hhn']
        · intro h0
          rcases Bool.or_eq_false_iff.mp h0 with ⟨hisn, hhn0⟩
          intro e he
          rcases List.mem_cons.mp he with rfl | he'
          · simpa using hisn
          · exact hes' hhn0 e he'

/-- C10: on a successful `build_index_scan_keys` run, the output has one
entry per index; an index that is not unique, has expressions, or whose
built key contains a null column yields a NULL entry, and every non-null
output is a key built from an eligible index with all entries non-null —
so a nulls-containing key is never handed onward through this builder. -/
theorem build_index_scan_keys_eligible_nonnull (tup : BDRTupleData) :
    ∀ (idxs : List IndexMeta) (out : List (Option (List ScanKeyEntry))),
      build_index_scan_keys tup idxs = .ok out →
      out.length = idxs.length
      ∧ ∀ (i : Nat) (idx : IndexMeta), idxs[i]? = some idx →
          ((idx.ii_Unique = false ∨ idx.ii_Expressions ≠ [] ∨
              index_key_has_nulls idx tup = true) → out[i]? = some none)
          ∧ (∀ key : List ScanKeyEntry, out[i]? = some (some key) →
              idx.ii_Unique = true ∧ idx.ii_Expressions = [] ∧
              index_key_has_nulls idx tup = false ∧
              ∀ e ∈ key, e.sk_isnull = false) := by
  intro idxs
  induction idxs with
  | nil =>
    intro out h
    rw [build_index_scan_keys] at h
    simp only [Except.ok.injEq] at h
    subst h
    exact ⟨rfl, fun i idx hidx => absurd hidx (by simp)⟩
  | cons idx0 rest ih =>
    intro out h
    rw [build_index_scan_keys] at h
    by_cases he : (!idx0.ii_Unique || !idx0.ii_Expressions.isEmpty) = true
    · rw [if_pos he] at h
      cases hr : build_index_scan_keys tup rest with
      | error e => rw [hr] at h; exact absurd h (by simp)
      | ok out' =>
        simp only [hr, Except.ok.injEq] at h
        subst h
        obtain ⟨hlen, hall⟩ := ih out' hr
        refine ⟨by simp [hlen], ?_⟩
        intro i idx hidx
        cases i with
        | zero =>
          simp only [List.getElem?_cons_zero, Option.some.injEq] at hidx
          subst hidx
          exact ⟨fun _ => by simp, fun key hk => by simp at hk⟩
        | succ i =>
          simp only [List.getElem?_cons_succ] at hidx ⊢
          exact hall i idx hidx
    · rw [if_neg he] at h
      have helig : idx0.ii_Unique = true ∧ idx0.ii_Expressions = [] := by
        simpa [List.isEmpty_iff] using he
      cases hk : build_index_scan_key idx0 tup with
      | error e => rw [hk] at h; exact absurd h (by simp)
      | ok p =>
        obtain ⟨key0, hasnulls⟩ := p
        cases hr : build_index_scan_keys tup rest with
        | error e =>
          simp only [hk, hr] at h
          exact absurd h (by simp)
        | ok out' =>
          simp only [hk, hr, Except.ok.injEq] at h
          subst h
          obtain ⟨hhn, hentries⟩ :=
            build_index_scan_key_loop_spec tup idx0.cols 1 key0 hasnulls hk
          have hhn' : hasnulls = index_key_has_nulls idx0 tup := hhn
          obtain ⟨hlen, hall⟩ := ih out' hr
          refine ⟨by simp [hlen], ?_⟩
          intro i idx hidx
          cases i with
          | zero =>
            simp only [List.getElem?_cons_zero, Option.some.injEq] at hidx
            subst hidx
            constructor
            · intro hbad
              rcases hbad with hbad | hbad | hbad
              · exact absurd helig.1 (by simp [hbad])
              · exact absurd helig.2 hbad
              · have hnt : hasnulls = true := by rw [hhn']; exact hbad
                simp [hnt]
            · intro key hkey
              by_cases hnl : hasnulls
              · simp [hnl] at hkey
              · simp only [Bool.not_eq_true] at hnl
                rw [hnl] at hkey
                have hkey' : key0 = key := by simpa using hkey
                subst hkey'
                exact ⟨helig.1, helig.2, by rw [← hhn']; exact hnl,
                  hentries hnl⟩
          | succ i =>
            simp only [List.getElem?_cons_succ] at hidx ⊢
            exact hall i idx hidx

/-- A candidate row with attribute 2 null. -/
def exTup : BDRTupleData := ⟨[11, 22, 33], [false, true, false]⟩

/-- A unique, non-expression index over attributes 1 and 3 (non-null in
`exTup`). -/
def exIdx0 : IndexMeta := ⟨true, [], [⟨1, some 100⟩, ⟨3, some 101⟩]⟩

/-- A unique, non-expression index over attribute 2 (null in `exTup`). -/
def exIdx1 : IndexMeta := ⟨true, [], [⟨2, some 100⟩]⟩

/-- The scan key built from `exIdx0` and `exTup`. -/
def exKey0 : List ScanKeyEntry :=
  [⟨1, BTEqualStrategyNumber, 100, 11, false⟩,
   ⟨2, BTEqualStrategyNumber, 101, 33, false⟩]

/-- The output of `build_index_scan_keys` on `exTup` and the two indexes. -/
def exOut : List (Option (List ScanKeyEntry)) := [some exKey0, none]

/-- Witness for C10: the null-key index yields a NULL entry, and the
non-null key of the eligible index has no `SK_ISNULL` entries. -/
theorem build_index_scan_keys_eligible_nonnull_witness :
    exOut[1]? = some none
    ∧ (exIdx0.ii_Unique = true ∧ exIdx0.ii_Expressions = [] ∧
       index_key_has_nulls exIdx0 exTup = false ∧
       ∀ e ∈ exKey0, e.sk_isnull = false) :=
  ⟨((build_index_scan_keys_eligible_nonnull exTup [exIdx0, exIdx1] exOut
        rfl).2 1 exIdx1 (by decide)).1 (Or.inr (Or.inr (by decide))),
   ((build_index_scan_keys_eligible_nonnull exTup [exIdx0, exIdx1] exOut
        rfl).2 0 exIdx0 (by decide)).2 exKey0 (by decide)⟩
